import Mathlib

/-!
# Verification of the ai-docs-plugin incremental documentation sync engine

Shallow embedding of the four sync scripts of the repository
(`skills/claude-api/scripts/sync-docs.ts`, the Claude Code variant,
`skills/openai-codex/scripts/sync-docs.ts` and
`skills/gemini-dev/scripts/sync-docs.ts`) together with theorems settling
the specification claims about them.

Modelling conventions:
* JavaScript strings are Lean `String`s; the JS operations `startsWith`,
  `includes`, `length` and `trim` are modelled on the character list
  (`String.data`), which agrees with the UTF-16 based JS semantics on the
  ASCII data these scripts manipulate.
* The untyped JSON value that `JSON.parse` produces (and that the scripts
  cast to their `Manifest` interface without validation) is modelled by the
  inductive `Json` below, including the JS `undefined` value produced by a
  missing-property access.  Property access follows the JS semantics:
  accessing a property of `null`/`undefined` throws a `TypeError` (modelled
  by `Except.error`), any other value yields the property or `undefined`.
* Network / filesystem effects are passed in as explicit oracle arguments
  (a `NetResult` per resource); clock reads during one run are modelled by
  a single timestamp string argument `now`.
* Fallible JS evaluation is `Except String`; a rejected promise of `main`
  is an `Except.error` value.
-/

/-- A JavaScript/JSON runtime value, as produced by `JSON.parse` plus the
distinguished `undefined` value that property access on objects yields for
missing keys. -/
inductive Json where
  | null : Json
  | undefined : Json
  | bool : Bool → Json
  | num : Int → Json
  | str : String → Json
  | arr : List Json → Json
  | obj : List (String × Json) → Json

/-- JS truthiness: `null`, `undefined`, `false`, `0` and `""` are falsy,
every other value (including all objects and arrays) is truthy. -/
def jsTruthy : Json → Bool
  | .null => false
  | .undefined => false
  | .bool b => b
  | .num n => !(n == 0)
  | .str s => !(s == "")
  | .arr _ => true
  | .obj _ => true

/-- JS property access `v[k]` / `v.k`.  On `null` or `undefined` it throws a
`TypeError`; on an object it returns the property value or `undefined`; on a
primitive (boxed) value it returns `undefined`. -/
def jsGetProp : Json → String → Except String Json
  | .null, k => .error ("TypeError: cannot read properties of null (reading " ++ k ++ ")")
  | .undefined, k => .error ("TypeError: cannot read properties of undefined (reading " ++ k ++ ")")
  | .obj fields, k => .ok ((fields.lookup k).getD .undefined)
  | _, _ => .ok .undefined

/-- JS strict equality `v === s` against a string value: true exactly when
`v` is the same string (`===` performs no coercion). -/
def jsEqStr (v : Json) (s : String) : Bool :=
  match v with
  | .str t => t == s
  | _ => false

/-- JS `String.prototype.startsWith`, on character data. -/
def strStartsWith (s pre : String) : Bool :=
  pre.data.isPrefixOf s.data

/-- Boolean infix test on lists: does `pat` occur contiguously in the
list? -/
def isInfixB (pat : List Char) : List Char → Bool
  | [] => pat.isEmpty
  | c :: cs => pat.isPrefixOf (c :: cs) || isInfixB pat cs

/-- JS `String.prototype.includes`, on character data. -/
def strIncludes (s pat : String) : Bool :=
  isInfixB pat.data s.data

/-- JS `String.prototype.length` (UTF-16 units; character count on the ASCII
content these scripts handle). -/
def strLen (s : String) : Nat :=
  s.data.length

/-- The whitespace characters stripped by `String.prototype.trim` that are
relevant to this code base (ASCII whitespace). -/
def isWsChar (c : Char) : Bool :=
  c == ' ' || c == '\t' || c == '\n' || c == '\r'

/-- JS `String.prototype.trim`: strip leading and trailing whitespace. -/
def jsTrim (s : String) : String :=
  ⟨((s.data.dropWhile isWsChar).reverse.dropWhile isWsChar).reverse⟩

/-- Outcome of one HTTP request as seen by the script: either a network-level
exception (rejected `fetch` promise) or a response carrying its status code
and body text. -/
inductive NetResult where
  | err : NetResult
  | resp : Nat → String → NetResult

/-- The `Response.ok` flag: true exactly for a 2xx status. -/
def respOk (status : Nat) : Bool :=
  200 ≤ status && status < 300

/-- The `fetchDoc` function of `skills/claude-api/scripts/sync-docs.ts` (lines 174–208;
identical in the Claude Code variant): returns the body on a 2xx response
whose body does not look like an HTML page (doctype prefix or `<html`
substring) and has length at least 50; returns `null` (here `none`) on a
non-2xx status, an HTML-looking body, a too-short body, or a network-level
exception. -/
def fetchDoc (net : NetResult) : Option String :=
  match net with
  | .err => none
  | .resp status content =>
    if !respOk status then
      none
    else if strStartsWith content "<!DOCTYPE" || strIncludes content "<html" then
      none
    else if strLen content < 50 then
      none
    else
      some content

/-- State of the manifest file on disk at the start of a run, as the script
observes it: absent, present but not valid JSON (`JSON.parse` throws), or
present and parsing to some JSON value `v` (which the script casts to its
`Manifest` type without validation). -/
inductive ManifestFile where
  | absent : ManifestFile
  | unparsable : String → ManifestFile
  | parsed : Json → ManifestFile

/-- Base URL constant of `skills/claude-api/scripts/sync-docs.ts`. -/
def BASE_URL : String := "https://platform.claude.com/docs/en"

/-- The default manifest value returned by `loadManifest` when no usable
manifest file exists: empty `lastSync`, the configured base URL, empty
`files` map. -/
def defaultManifestJson : Json :=
  .obj [("lastSync", .str ""), ("baseUrl", .str BASE_URL), ("files", .obj [])]

/-- The `loadManifest` function (claude-api lines 153–163; same shape in every variant).
Returns the loaded JSON value and whether the "Failed to load manifest"
warning was printed.  The function is total because the source wraps the
read and parse in `try`/`catch`: an unparsable file is caught and replaced
by the default manifest; an absent file never enters the `try` block; a file
parsing to any JSON value `v` is returned unchanged (the cast to `Manifest`
performs no runtime check). -/
def loadManifest : ManifestFile → Json × Bool
  | .absent => (defaultManifestJson, false)
  | .unparsable _ => (defaultManifestJson, true)
  | .parsed v => (v, false)

/-- A configured resource of `skills/claude-api/scripts/sync-docs.ts`
(`interface DocPage`): an opaque slug, a destination relative path, and
human-readable metadata. -/
structure DocPage where
  slug : String
  outputPath : String
  title : String
  description : String
deriving DecidableEq, Repr

/-- The per-resource status word printed by the main loop: `" new"`,
`" updated"`, `" unchanged"`, or the failure report that `fetchDoc` printed
when it returned `null`. -/
inductive Status where
  | isNew : Status
  | isUpdated : Status
  | isUnchanged : Status
  | isFailed : Status
deriving DecidableEq, Repr

/-- JS object-property assignment `m[k] = v` on an assoc-list model of a
`Record<string, _>`: replace the value in place if the key is present,
otherwise append the new binding. -/
def setKey (m : List (String × Json)) (k : String) (v : Json) : List (String × Json) :=
  if m.any (fun p => p.1 == k) then
    m.map (fun p => if p.1 == k then (k, v) else p)
  else
    m ++ [(k, v)]

/-- The mutable state of one run of `main`: the `files` map of the new
manifest being built, the three counters, the destination-file writes
performed so far (path and content), and the per-resource statuses printed
so far (keyed by slug). -/
structure SyncState where
  files : List (String × Json)
  fetched : Nat
  unchanged : Nat
  failed : Nat
  writes : List (String × String)
  statuses : List (String × Status)

/-- The state at the top of `main`'s loop: empty new manifest, all counters
zero, nothing written, nothing printed. -/
def initState : SyncState :=
  { files := [], fetched := 0, unchanged := 0, failed := 0, writes := [], statuses := [] }

/-- The expression `manifest.files[key]` evaluated with JS dynamic
semantics on the (unvalidated) JSON value loaded from the manifest file:
first the `files` property of `manifest`, then indexing by `key`.  Throws
when `manifest` or `manifest.files` is `null`/`undefined`. -/
def dynLookupOld (manifest : Json) (key : String) : Except String Json :=
  match jsGetProp manifest "files" with
  | .error e => .error e
  | .ok files => jsGetProp files key

/-- The fresh manifest entry recorded for a new or updated page
(claude-api lines 270–277). -/
def freshEntryJson (page : DocPage) (h now : String) : Json :=
  .obj [("slug", .str page.slug), ("title", .str page.title),
        ("description", .str page.description), ("hash", .str h),
        ("lastUpdated", .str now), ("sourceUrl", .str (BASE_URL ++ "/" ++ page.slug))]

/-- One iteration of the claude-api `main` loop (lines 243–282) for page
`page`, in state `st`.  `hashContent` is the SHA-256 fingerprint function
(abstracted; only its results are compared), `now` the timestamp string a
clock read yields during this run, `oldManifest` the JSON value returned by
`loadManifest`, and `net` the network oracle giving each page's HTTP
outcome.  A failed fetch increments `failed` and continues; otherwise the
old entry is looked up (JS semantics: this may throw on a malformed
manifest, which rejects `main`), an entry with an equal hash is carried
forward verbatim, and otherwise the content is written (unless in dry-run
mode) and a fresh entry recorded. -/
def claudeApiStep (hashContent : String → String) (now : String) (oldManifest : Json)
    (isDryRun : Bool) (net : DocPage → NetResult) (st : SyncState) (page : DocPage) :
    Except String SyncState :=
  match fetchDoc (net page) with
  | none =>
    .ok { st with failed := st.failed + 1,
                  statuses := st.statuses ++ [(page.slug, Status.isFailed)] }
  | some content =>
    let h := hashContent content
    match dynLookupOld oldManifest page.outputPath with
    | .error e => .error e
    | .ok oldEntry =>
    if jsTruthy oldEntry then
      match jsGetProp oldEntry "hash" with
      | .error e => .error e
      | .ok oldHash =>
      if jsEqStr oldHash h then
        .ok { st with unchanged := st.unchanged + 1,
                      files := setKey st.files page.outputPath oldEntry,
                      statuses := st.statuses ++ [(page.slug, Status.isUnchanged)] }
      else
        .ok { st with fetched := st.fetched + 1,
                      writes := if isDryRun then st.writes
                                else st.writes ++ [(page.outputPath, content)],
                      files := setKey st.files page.outputPath (freshEntryJson page h now),
                      statuses := st.statuses ++ [(page.slug, Status.isUpdated)] }
    else
      .ok { st with fetched := st.fetched + 1,
                    writes := if isDryRun then st.writes
                              else st.writes ++ [(page.outputPath, content)],
                    files := setKey st.files page.outputPath (freshEntryJson page h now),
                    statuses := st.statuses ++ [(page.slug, Status.isNew)] }

/-- The claude-api `main` resource loop over the configured page list:
a strictly sequential left-to-right fold of `claudeApiStep`, starting from
`initState`.  An exception thrown by a step rejects the whole run (there is
no per-iteration catch in this script's loop). -/
def claudeApiLoopFrom (hashContent : String → String) (now : String) (oldManifest : Json)
    (isDryRun : Bool) (net : DocPage → NetResult) :
    List DocPage → SyncState → Except String SyncState
  | [], st => .ok st
  | page :: rest, st =>
    match claudeApiStep hashContent now oldManifest isDryRun net st page with
    | .error e => .error e
    | .ok st' => claudeApiLoopFrom hashContent now oldManifest isDryRun net rest st'

/-- The claude-api `main` resource loop started in the initial state. -/
def claudeApiLoop (hashContent : String → String) (now : String) (oldManifest : Json)
    (isDryRun : Bool) (net : DocPage → NetResult) (pages : List DocPage) :
    Except String SyncState :=
  claudeApiLoopFrom hashContent now oldManifest isDryRun net pages initState

/-- Result of one whole claude-api run: the final loop state and the
manifest file write performed by `saveManifest` (`none` in dry-run mode;
otherwise the new manifest with `lastSync` stamped and the accumulated
`files` map). -/
structure RunResult where
  state : SyncState
  savedManifest : Option Json

/-- The whole claude-api `main` after the loop: skip `saveManifest` in
dry-run mode, otherwise persist the new manifest (lines 284–286, 165–168). -/
def claudeApiRun (hashContent : String → String) (now : String) (oldManifest : Json)
    (isDryRun : Bool) (net : DocPage → NetResult) (pages : List DocPage) :
    Except String RunResult :=
  match claudeApiLoop hashContent now oldManifest isDryRun net pages with
  | .error e => .error e
  | .ok st =>
    .ok { state := st,
          savedManifest :=
            if isDryRun then none
            else some (.obj [("lastSync", .str now), ("baseUrl", .str BASE_URL),
                             ("files", .obj st.files)]) }

/-- A well-formed old manifest as `loadManifest` yields it for an intact
manifest file: the JSON object whose `files` property holds the given
bindings. -/
def mkManifest (files : List (String × Json)) : Json :=
  .obj [("lastSync", .str ""), ("baseUrl", .str BASE_URL), ("files", .obj files)]

/-! ## The Claude Code variant (the unnamed source file syncing code.claude.com)

Same loop shape as the claude-api script but keyed by slug instead of
destination path, writing to `slug ++ ".md"`, and followed by a
supplementary changelog fetch from a fixed GitHub raw URL. -/

/-- Base URL constant of the Claude Code sync script. -/
def CC_BASE_URL : String := "https://code.claude.com/docs/en"

/-- The fixed changelog source URL of the Claude Code sync script. -/
def CHANGELOG_URL : String :=
  "https://raw.githubusercontent.com/anthropics/claude-code/main/CHANGELOG.md"

/-- A configured resource of the Claude Code sync script: unlike the
claude-api variant there is no separate destination path (the slug is the
manifest key and `slug ++ ".md"` the destination). -/
structure DocPageCC where
  slug : String
  title : String
  description : String
deriving DecidableEq, Repr

/-- The fresh manifest entry recorded by the Claude Code script for a new or
updated page (its lines 216–223). -/
def ccFreshEntryJson (page : DocPageCC) (h now : String) : Json :=
  .obj [("slug", .str page.slug), ("title", .str page.title),
        ("description", .str page.description), ("hash", .str h),
        ("lastUpdated", .str now), ("sourceUrl", .str (CC_BASE_URL ++ "/" ++ page.slug))]

/-- One iteration of the Claude Code `main` loop (its lines 190–228):
identical in structure to `claudeApiStep` but the manifest lookup and the
new-manifest assignment are keyed by `page.slug` and the destination file is
`page.slug ++ ".md"`. -/
def ccStep (hashContent : String → String) (now : String) (oldManifest : Json)
    (isDryRun : Bool) (net : DocPageCC → NetResult) (st : SyncState) (page : DocPageCC) :
    Except String SyncState :=
  match fetchDoc (net page) with
  | none =>
    .ok { st with failed := st.failed + 1,
                  statuses := st.statuses ++ [(page.slug, Status.isFailed)] }
  | some content =>
    let h := hashContent content
    match dynLookupOld oldManifest page.slug with
    | .error e => .error e
    | .ok oldEntry =>
    if jsTruthy oldEntry then
      match jsGetProp oldEntry "hash" with
      | .error e => .error e
      | .ok oldHash =>
      if jsEqStr oldHash h then
        .ok { st with unchanged := st.unchanged + 1,
                      files := setKey st.files page.slug oldEntry,
                      statuses := st.statuses ++ [(page.slug, Status.isUnchanged)] }
      else
        .ok { st with fetched := st.fetched + 1,
                      writes := if isDryRun then st.writes
                                else st.writes ++ [(page.slug ++ ".md", content)],
                      files := setKey st.files page.slug (ccFreshEntryJson page h now),
                      statuses := st.statuses ++ [(page.slug, Status.isUpdated)] }
    else
      .ok { st with fetched := st.fetched + 1,
                    writes := if isDryRun then st.writes
                              else st.writes ++ [(page.slug ++ ".md", content)],
                    files := setKey st.files page.slug (ccFreshEntryJson page h now),
                    statuses := st.statuses ++ [(page.slug, Status.isNew)] }

/-- The fresh manifest entry recorded for the supplementary changelog
resource (Claude Code script lines 252–259). -/
def changelogEntryJson (h now : String) : Json :=
  .obj [("slug", .str "changelog"), ("title", .str "Changelog"),
        ("description", .str "Release notes and version history"), ("hash", .str h),
        ("lastUpdated", .str now), ("sourceUrl", .str CHANGELOG_URL)]

/-- The supplementary changelog step of the Claude Code script (its lines
230–265).  The raw changelog is fetched without any content validation; the
whole block is wrapped in `try`/`catch`, so any exception (a rejected fetch,
or a `TypeError` from the manifest lookup) increments `failed`.  Crucially,
a response with a non-2xx status is neither processed nor counted: the
`if (response.ok)` has no `else` branch and no exception is thrown, so the
step leaves the state untouched. -/
def ccChangelogStep (hashContent : String → String) (now : String) (oldManifest : Json)
    (isDryRun : Bool) (st : SyncState) (net : NetResult) : SyncState :=
  match net with
  | .err =>
    { st with failed := st.failed + 1,
              statuses := st.statuses ++ [("changelog", Status.isFailed)] }
  | .resp status content =>
    if respOk status then
      let h := hashContent content
      match dynLookupOld oldManifest "changelog" with
      | .error _ =>
        { st with failed := st.failed + 1,
                  statuses := st.statuses ++ [("changelog", Status.isFailed)] }
      | .ok oldEntry =>
        if jsTruthy oldEntry then
          match jsGetProp oldEntry "hash" with
          | .error _ =>
            { st with failed := st.failed + 1,
                      statuses := st.statuses ++ [("changelog", Status.isFailed)] }
          | .ok oldHash =>
            if jsEqStr oldHash h then
              { st with unchanged := st.unchanged + 1,
                        files := setKey st.files "changelog" oldEntry,
                        statuses := st.statuses ++ [("changelog", Status.isUnchanged)] }
            else
              { st with fetched := st.fetched + 1,
                        writes := if isDryRun then st.writes
                                  else st.writes ++ [("changelog.md", content)],
                        files := setKey st.files "changelog" (changelogEntryJson h now),
                        statuses := st.statuses ++ [("changelog", Status.isUpdated)] }
        else
          { st with fetched := st.fetched + 1,
                    writes := if isDryRun then st.writes
                              else st.writes ++ [("changelog.md", content)],
                    files := setKey st.files "changelog" (changelogEntryJson h now),
                    statuses := st.statuses ++ [("changelog", Status.isNew)] }
    else
      st

/-- The Claude Code script's sequential page loop: one `ccStep` after the
other; a thrown exception rejects the remainder of `main`. -/
def ccLoopFrom (hashContent : String → String) (now : String) (oldManifest : Json)
    (isDryRun : Bool) (net : DocPageCC → NetResult) :
    List DocPageCC → SyncState → Except String SyncState
  | [], st => .ok st
  | page :: rest, st =>
    match ccStep hashContent now oldManifest isDryRun net st page with
    | .error e => .error e
    | .ok st' => ccLoopFrom hashContent now oldManifest isDryRun net rest st'

/-- One whole run of the Claude Code script's `main`: the sequential page
loop, then the supplementary changelog step, then `saveManifest` unless in
dry-run mode. -/
def ccRun (hashContent : String → String) (now : String) (oldManifest : Json)
    (isDryRun : Bool) (net : DocPageCC → NetResult) (pages : List DocPageCC)
    (changelogNet : NetResult) : Except String RunResult :=
  match ccLoopFrom hashContent now oldManifest isDryRun net pages initState with
  | .error e => .error e
  | .ok st =>
    let st2 := ccChangelogStep hashContent now oldManifest isDryRun st changelogNet
    .ok { state := st2,
          savedManifest :=
            if isDryRun then none
            else some (.obj [("lastSync", .str now), ("baseUrl", .str CC_BASE_URL),
                             ("files", .obj st2.files)]) }

/-- The sum of the three run counters, and a `0` placeholder for a rejected
run (a rejected `main` prints no summary at all). -/
def countersSum : Except String RunResult → Nat
  | .ok r => r.state.fetched + r.state.unchanged + r.state.failed
  | .error _ => 0

/-! ## The gemini-dev script (`skills/gemini-dev/scripts/sync-docs.ts`)

HTML pages fetched in concurrent batches of five, converted to markdown,
cleaned, and written; no manifest and no hash comparison. -/

/-- A configured page of the gemini-dev script (`interface DocPage` there):
source URL, destination relative path, title. -/
structure GemDocPage where
  url : String
  outputPath : String
  title : String
deriving DecidableEq, Repr

/-- The configured `DOC_PAGES` list of the gemini-dev script. -/
def GEMINI_DOC_PAGES : List GemDocPage := [
  { url := "https://ai.google.dev/gemini-api/docs/models",
    outputPath := "models.md", title := "Gemini Models Overview" },
  { url := "https://ai.google.dev/gemini-api/docs/text-generation",
    outputPath := "text-generation.md", title := "Text Generation" },
  { url := "https://ai.google.dev/gemini-api/docs/structured-output",
    outputPath := "structured-outputs.md", title := "Structured Outputs" },
  { url := "https://ai.google.dev/gemini-api/docs/function-calling",
    outputPath := "function-calling.md", title := "Function Calling" },
  { url := "https://ai.google.dev/gemini-api/docs/image-understanding",
    outputPath := "multimodal/images.md", title := "Image Understanding" },
  { url := "https://ai.google.dev/gemini-api/docs/document-processing",
    outputPath := "multimodal/documents.md", title := "Document Processing" },
  { url := "https://ai.google.dev/gemini-api/docs/audio",
    outputPath := "multimodal/audio.md", title := "Audio Understanding" },
  { url := "https://ai.google.dev/gemini-api/docs/video-understanding",
    outputPath := "multimodal/video.md", title := "Video Understanding" },
  { url := "https://ai.google.dev/gemini-api/docs/files",
    outputPath := "files-api.md", title := "Files API" },
  { url := "https://ai.google.dev/gemini-api/docs/caching",
    outputPath := "context-caching.md", title := "Context Caching" },
  { url := "https://ai.google.dev/gemini-api/docs/tokens",
    outputPath := "token-counting.md", title := "Token Counting" },
  { url := "https://ai.google.dev/gemini-api/docs/long-context",
    outputPath := "long-context.md", title := "Long Context" },
  { url := "https://ai.google.dev/gemini-api/docs/code-execution",
    outputPath := "code-execution.md", title := "Code Execution" },
  { url := "https://ai.google.dev/gemini-api/docs/url-context",
    outputPath := "url-context.md", title := "URL Context" },
  { url := "https://ai.google.dev/gemini-api/docs/grounding",
    outputPath := "search-grounding.md", title := "Google Search Grounding" }]

/-- Helper for `chunks`: consume the input, filling the current batch `acc`
(held reversed) until the remaining capacity `k` reaches zero, then emit it
and start a new batch of capacity `n`. -/
def chunkAux (n : Nat) : List α → List α → Nat → List (List α)
  | [], acc, _ => [acc.reverse]
  | x :: xs, acc, 0 => acc.reverse :: chunkAux n xs [x] (n - 1)
  | x :: xs, acc, k + 1 => chunkAux n xs (x :: acc) k

/-- Split a list into consecutive batches of `n` elements (the last batch may
be shorter): the shape of the gemini-dev fetch loop
`for (i = 0; i < N; i += concurrency) { slice(i, i + concurrency) }`. -/
def chunks (n : Nat) : List α → List (List α)
  | [] => []
  | x :: xs => chunkAux n xs [x] (n - 1)

/-- The gemini-dev fetch schedule (its lines 242–250): the configured pages
in batches of `concurrency = 5`.  All pages of one batch are fetched
concurrently (`Promise.all(batch.map(fetchPage))`); the batches themselves
are awaited one after the other. -/
def gemFetchBatches (pages : List GemDocPage) : List (List GemDocPage) :=
  chunks 5 pages

/-- The `fetchPage` function of the gemini-dev script (lines 205–224): returns the body
of a 2xx response, `null` on a non-2xx status or a network exception.  No
content validation is performed. -/
def gemFetch (net : GemDocPage → NetResult) (p : GemDocPage) : Option String :=
  match net p with
  | .err => none
  | .resp status body => if respOk status then some body else none

/-- The `results` array after the fetch phase: the batch results pushed in
order, batch after batch. -/
def gemResults (net : GemDocPage → NetResult) (pages : List GemDocPage) :
    List (GemDocPage × Option String) :=
  ((gemFetchBatches pages).map (fun batch => batch.map (fun p => (p, gemFetch net p)))).flatten

/-- The blank-line collapsing of `cleanMarkdown`
(`markdown.replace(/\n{3,}/g, "\n\n")`): every maximal run of `n ≥ 3`
newline characters is replaced by exactly two newlines.  `emitNl n` renders
one maximal run of `n` newlines after collapsing. -/
def emitNl (n : Nat) : List Char :=
  if 3 ≤ n then ['\n', '\n'] else List.replicate n '\n'

/-- Character-level scan implementing the global regex replacement: `n`
counts the newline run currently being read. -/
def collapseGo : Nat → List Char → List Char
  | n, [] => emitNl n
  | n, c :: cs =>
    if c == '\n' then collapseGo (n + 1) cs
    else emitNl n ++ (c :: collapseGo 0 cs)

/-- The replacement `markdown.replace(/\n{3,}/g, "\n\n")` as a string function. -/
def collapseNewlineRuns (s : String) : String :=
  ⟨collapseGo 0 s.data⟩

/-- The metadata frontmatter block prepended by `cleanMarkdown`
(gemini-dev lines 193–200); `synced` is the date part of the ISO timestamp. -/
def mdFrontmatter (title url synced : String) : String :=
  "---\ntitle: \"" ++ title ++ "\"\nsource: \"" ++ url ++ "\"\nsynced: \"" ++
    synced ++ "\"\n---\n\n"

/-- The `cleanMarkdown` function of the gemini-dev script (lines 185–203): collapse
newline runs, trim outer whitespace, prepend the frontmatter. -/
def cleanMarkdown (markdown title url synced : String) : String :=
  mdFrontmatter title url synced ++ jsTrim (collapseNewlineRuns markdown)

/-- State of the gemini-dev result-processing loop: the success counter, the
destination writes performed, and the per-page report lines printed. -/
structure GemState where
  successCount : Nat
  writes : List (String × String)
  lines : List String
deriving DecidableEq, Repr

/-- Processing of one fetch result in the gemini-dev loop (lines 253–281).
`convert` models `extractMainContent` followed by `turndown.turndown`
(external HTML-to-markdown conversion, which may throw — caught per page).
A page whose fetch returned `null` is skipped silently; a converted page is
cleaned and, in dry-run mode, reported with its byte count but not written,
otherwise written and reported without the byte count. -/
def gemProcessResult (convert : String → Except String String) (now : String)
    (dryRun : Bool) (st : GemState) (r : GemDocPage × Option String) : GemState :=
  match r.2 with
  | none => st
  | some html =>
    match convert html with
    | .error e =>
      { st with lines := st.lines ++ ["  ✗ Failed to process " ++ r.1.url ++ ": " ++ e] }
    | .ok md =>
      let cleaned := cleanMarkdown md r.1.title r.1.url now
      if dryRun then
        { st with successCount := st.successCount + 1,
                  lines := st.lines ++
                    ["  ✓ " ++ r.1.outputPath ++ " (" ++ toString (strLen cleaned) ++ " bytes)"] }
      else
        { st with successCount := st.successCount + 1,
                  writes := st.writes ++ [(r.1.outputPath, cleaned)],
                  lines := st.lines ++ ["  ✓ " ++ r.1.outputPath] }

/-- One whole `syncDocs` run of the gemini-dev script: batched fetch phase,
then sequential processing of the results.  The script keeps no manifest at
all and `writes` is its only persistence. -/
def gemRun (convert : String → Except String String) (now : String) (dryRun : Bool)
    (net : GemDocPage → NetResult) (pages : List GemDocPage) : GemState :=
  (gemResults net pages).foldl (gemProcessResult convert now dryRun)
    { successCount := 0, writes := [], lines := [] }

/-- The final summary line of `syncDocs`
(`Synced ${successCount}/${DOC_PAGES.length} pages`). -/
def gemSummaryLine (st : GemState) (pages : List GemDocPage) : String :=
  "Synced " ++ toString st.successCount ++ "/" ++ toString pages.length ++ " pages"

/-! ## Process exit codes

The three scripts ending in `main().catch(console.error)` (claude-api,
Claude Code, openai-codex) handle every rejection of `main`: the process
reaches its natural end and exits 0 whether `main` resolved or rejected.
The openai-codex (and gemini-cli) scripts additionally call
`process.exit(1)` when the repository clone/update fails.  The gemini-dev
script instead ends in a bare top-level `await syncDocs(...)` with no catch:
an uncaught error there is an unhandled rejection, on which the Bun runtime
exits with a non-zero code. -/

/-- Outcome of `cloneOrPullRepo` in the openai-codex script: the resolved
commit hash, or a clone/update failure. -/
inductive CloneResult where
  | cloned : String → CloneResult
  | cloneError : CloneResult

/-- Process exit code of the claude-api / Claude Code scripts as a function
of whether `main`'s promise rejected: `main().catch(console.error)` handles
the rejection, so the process exits 0 in both cases. -/
def claudeApiExitCode (_mainRejected : Bool) : Nat := 0

/-- Process exit code of the openai-codex script: `process.exit(1)` on a
clone/update failure (its lines 113–121); otherwise 0 — also when the rest
of `main` throws, because `main().catch(console.error)` handles it. -/
def codexExitCode (clone : CloneResult) (_restRejected : Bool) : Nat :=
  match clone with
  | .cloneError => 1
  | .cloned _ => 0

/-- Process exit code of the gemini-dev script: a bare top-level
`await syncDocs(...)` without a catch, so an uncaught error (e.g. the
output-directory `mkdir` failing, line 235) is an unhandled rejection and
the process exits 1; otherwise 0. -/
def geminiDevExitCode (uncaughtError : Bool) : Nat :=
  if uncaughtError then 1 else 0

/-! ## Independent specification of the blank-line collapsing

To check `cleanMarkdown` against the specification's wording, the
replacement `markdown.replace(/\n{3,}/g, "\n\n")` is specified independently
of the scanning implementation: decompose the text into maximal newline runs
and loose characters, cap each run's length, and re-assemble. -/

/-- Run-length view of the newline structure of a text: `.inl n` is a
maximal run of `n ≥ 1` newline characters, `.inr c` any other character. -/
def rleNl : List Char → List (Nat ⊕ Char)
  | [] => []
  | c :: cs =>
    if c == '\n' then
      match rleNl cs with
      | .inl n :: r => .inl (n + 1) :: r
      | r => .inl 1 :: r
    else .inr c :: rleNl cs

/-- Re-assemble a run-length view into text, rendering each newline run of
length `n` as `cap n` newlines. -/
def unrle (cap : Nat → Nat) : List (Nat ⊕ Char) → List Char
  | [] => []
  | .inl n :: r => List.replicate (cap n) '\n' ++ unrle cap r
  | .inr c :: r => c :: unrle cap r

/-- Run capping performed by the source regex `/\n{3,}/g → "\n\n"`: a run of
3 or more newlines (2 or more blank lines) becomes exactly 2 newlines (one
blank line). -/
def capCode (n : Nat) : Nat :=
  if 3 ≤ n then 2 else n

/-- Run capping as the claim words it: a run of 3 or more *blank lines*
(hence 4 or more newlines) becomes exactly one blank line (2 newlines);
shorter runs are untouched. -/
def capClaim (n : Nat) : Nat :=
  if 4 ≤ n then 2 else n

/-- The regex replacement, specified via the run-length view with the
source's cap. -/
def collapseCodeSpec (s : String) : String :=
  ⟨unrle capCode (rleNl s.data)⟩

/-- Modelled from the claim's words: the body transformation C8 describes,
collapsing only runs of 3 or more blank lines. -/
def collapseClaimSpec (s : String) : String :=
  ⟨unrle capClaim (rleNl s.data)⟩

/-- Modelled from the claim's words: `cleanMarkdown` as claim C8 describes
it (header prepended to the body with runs of 3+ blank lines collapsed and
outer whitespace trimmed). -/
def cleanMarkdownClaim (markdown title url synced : String) : String :=
  mdFrontmatter title url synced ++ jsTrim (collapseClaimSpec markdown)

/-- Prepending `n` further newlines onto a run-length view (merging with a
leading run when there is one). -/
def consRun (n : Nat) : List (Nat ⊕ Char) → List (Nat ⊕ Char)
  | .inl m :: r => .inl (m + n) :: r
  | r => if n = 0 then r else .inl n :: r

theorem consRun_zero (r : List (Nat ⊕ Char)) : consRun 0 r = r := by
  cases r with
  | nil => simp [consRun]
  | cons a r' => cases a <;> simp [consRun]

theorem consRun_consRun (n : Nat) (r : List (Nat ⊕ Char)) :
    consRun n (consRun 1 r) = consRun (n + 1) r := by
  cases r with
  | nil => simp [consRun, Nat.add_comm]
  | cons a r' =>
    cases a with
    | inl m =>
      simp only [consRun]
      have h : m + 1 + n = m + (n + 1) := by omega
      rw [h]
    | inr c =>
      simp [consRun, Nat.add_comm]

theorem rleNl_cons_nl (cs : List Char) : rleNl ('\n' :: cs) = consRun 1 (rleNl cs) := by
  simp only [rleNl, if_pos rfl]
  cases h : rleNl cs with
  | nil => simp [consRun]
  | cons a r =>
    cases a with
    | inl m => simp [consRun]
    | inr c => simp [consRun]

theorem emitNl_eq_replicate (n : Nat) : emitNl n = List.replicate (capCode n) '\n' := by
  unfold emitNl capCode
  split
  · rfl
  · rfl

theorem collapseGo_eq_unrle (l : List Char) :
    ∀ n, collapseGo n l = unrle capCode (consRun n (rleNl l)) := by
  induction l with
  | nil =>
    intro n
    cases n with
    | zero => simp [collapseGo, emitNl, consRun, unrle, rleNl]
    | succ m =>
      simp [collapseGo, consRun, rleNl, unrle, emitNl_eq_replicate]
  | cons c cs ih =>
    intro n
    by_cases hc : c = '\n'
    · subst hc
      rw [rleNl_cons_nl]
      rw [consRun_consRun]
      simp only [collapseGo, if_pos rfl]
      exact ih (n + 1)
    · have hc' : (c == '\n') = false := by
        simp [hc]
      simp only [collapseGo, hc', if_neg, Bool.false_eq_true, not_false_iff]
      have hr : rleNl (c :: cs) = .inr c :: rleNl cs := by
        simp [rleNl, hc']
      rw [hr]
      cases n with
      | zero =>
        rw [consRun_zero]
        simp [unrle, emitNl, ih 0, consRun_zero]
      | succ m =>
        have : consRun (m + 1) (Sum.inr c :: rleNl cs) =
            .inl (m + 1) :: .inr c :: rleNl cs := by
          simp [consRun]
        rw [this]
        simp [unrle, emitNl_eq_replicate, ih 0, consRun_zero]

theorem collapseNewlineRuns_eq_spec (s : String) :
    collapseNewlineRuns s = collapseCodeSpec s := by
  unfold collapseNewlineRuns collapseCodeSpec
  rw [collapseGo_eq_unrle s.data 0, consRun_zero]

/-! ## Helper lemmas -/

theorem chunkAux_flatten (n : Nat) (l : List α) :
    ∀ acc k, (chunkAux n l acc k).flatten = acc.reverse ++ l := by
  induction l with
  | nil => intro acc k; simp [chunkAux]
  | cons x xs ih =>
    intro acc k
    cases k with
    | zero => simp [chunkAux, ih]
    | succ k' => simp [chunkAux, ih]

/-- Batching preserves the page list: concatenating the batches in order
gives back exactly the configured list. -/
theorem chunks_flatten (n : Nat) (l : List α) : (chunks n l).flatten = l := by
  cases l with
  | nil => rfl
  | cons x xs => simp [chunks, chunkAux_flatten]

theorem chunkAux_mem_length (n : Nat) (l : List α) :
    ∀ acc k b, b ∈ chunkAux n l acc k → acc.length + k ≤ n → 1 ≤ acc.length →
      1 ≤ b.length ∧ b.length ≤ n := by
  induction l with
  | nil =>
    intro acc k b hb hk hacc
    simp [chunkAux] at hb
    subst hb
    simp only [List.length_reverse]
    omega
  | cons x xs ih =>
    intro acc k b hb hk hacc
    cases k with
    | zero =>
      simp only [chunkAux, List.mem_cons] at hb
      rcases hb with hb | hb
      · subst hb
        simp only [List.length_reverse]
        omega
      · exact ih [x] (n - 1) b hb (by simp; omega) (by simp)
    | succ k' =>
      exact ih (x :: acc) k' b hb (by simp; omega) (by simp)

/-- Every batch produced by `chunks n` (for `n ≥ 1`) is nonempty and holds
at most `n` elements. -/
theorem chunks_mem_length (n : Nat) (hn : 1 ≤ n) (l : List α) (b : List α)
    (hb : b ∈ chunks n l) : 1 ≤ b.length ∧ b.length ≤ n := by
  cases l with
  | nil => simp [chunks] at hb
  | cons x xs =>
    exact chunkAux_mem_length n xs [x] (n - 1) b hb (by simp; omega) (by simp)

theorem lookup_map_setKey (m : List (String × Json)) (k : String) (v : Json)
    (h : m.any (fun p => p.1 == k) = true) :
    (m.map (fun p => if p.1 == k then (k, v) else p)).lookup k = some v := by
  induction m with
  | nil => simp at h
  | cons a m' ih =>
    obtain ⟨a1, a2⟩ := a
    by_cases ha : a1 = k
    · subst ha
      rw [List.map_cons,
        show (if (a1, a2).1 == a1 then (a1, v) else (a1, a2)) = (a1, v) by simp]
      simp [List.lookup]
    · have ha' : (a1 == k) = false := by simp [ha]
      have hka : (k == a1) = false := by simp [Ne.symm ha]
      have h' : (m'.any fun p => p.1 == k) = true := by
        simp only [List.any_cons] at h
        rw [show ((a1, a2).1 == k) = false from ha'] at h
        simpa using h
      rw [List.map_cons]
      rw [show (if (a1, a2).1 == k then (k, v) else (a1, a2)) = (a1, a2) by
        rw [show ((a1, a2).1 == k) = false from ha']
        simp]
      simp only [List.lookup, hka]
      exact ih h'

theorem lookup_append_single (m : List (String × Json)) (k : String) (v : Json)
    (h : m.any (fun p => p.1 == k) = false) :
    (m ++ [(k, v)]).lookup k = some v := by
  induction m with
  | nil => simp [List.lookup]
  | cons a m' ih =>
    obtain ⟨a1, a2⟩ := a
    simp only [List.any_cons, Bool.or_eq_false_iff] at h
    have ha : ¬ a1 = k := by
      intro hh
      rw [show ((a1, a2).1 == k) = true by simp [hh]] at h
      exact absurd h.1 (by simp)
    have hka : (k == a1) = false := by simp [Ne.symm ha]
    rw [List.cons_append]
    simp only [List.lookup, hka]
    exact ih h.2

/-- After a JS assignment `m[k] = v`, reading `m[k]` yields `v`. -/
theorem lookup_setKey_self (m : List (String × Json)) (k : String) (v : Json) :
    (setKey m k v).lookup k = some v := by
  unfold setKey
  cases hAny : m.any (fun p => p.1 == k) with
  | true =>
    simpa using lookup_map_setKey m k v hAny
  | false =>
    simpa using lookup_append_single m k v hAny

/-- Reading `manifest.files[key]` on a well-formed manifest object yields the
stored entry, or `undefined` for an absent key, and never throws. -/
theorem dynLookupOld_mkManifest (files : List (String × Json)) (k : String) :
    dynLookupOld (mkManifest files) k = .ok ((files.lookup k).getD .undefined) := rfl

/-- Sum of the three run counters of a loop state. -/
def sumCounters (st : SyncState) : Nat :=
  st.fetched + st.unchanged + st.failed

/-- Property access on a truthy value never throws (only `null` and
`undefined` raise a `TypeError`, and both are falsy). -/
theorem jsGetProp_ok_of_truthy (e : Json) (k : String) (ht : jsTruthy e = true) :
    ∃ v, jsGetProp e k = .ok v := by
  cases e with
  | null => simp [jsTruthy] at ht
  | undefined => simp [jsTruthy] at ht
  | bool b => exact ⟨.undefined, rfl⟩
  | num n => exact ⟨.undefined, rfl⟩
  | str s => exact ⟨.undefined, rfl⟩
  | arr l => exact ⟨.undefined, rfl⟩
  | obj fields => exact ⟨_, rfl⟩

/-- With a well-formed old manifest, one claude-api loop iteration never
throws and moves exactly one counter up by one (and prints exactly one more
per-resource status). -/
theorem claudeApiStep_total (hashContent : String → String) (now : String)
    (files : List (String × Json)) (isDryRun : Bool) (net : DocPage → NetResult)
    (st : SyncState) (page : DocPage) :
    ∃ st', claudeApiStep hashContent now (mkManifest files) isDryRun net st page = .ok st' ∧
      sumCounters st' = sumCounters st + 1 ∧
      st'.statuses.length = st.statuses.length + 1 := by
  unfold claudeApiStep
  cases hf : fetchDoc (net page) with
  | none =>
    exact ⟨_, rfl, by simp only [sumCounters]; omega, by simp⟩
  | some content =>
    rw [dynLookupOld_mkManifest]
    dsimp only
    split
    · rename_i ht
      split
      · rename_i e' herr
        obtain ⟨v, hv⟩ := jsGetProp_ok_of_truthy _ "hash" ht
        rw [hv] at herr
        cases herr
      · split
        · exact ⟨_, rfl, by simp only [sumCounters]; omega, by simp⟩
        · exact ⟨_, rfl, by simp only [sumCounters]; omega, by simp⟩
    · exact ⟨_, rfl, by simp only [sumCounters]; omega, by simp⟩

/-- With a well-formed old manifest the claude-api loop completes, and the
counters grow by exactly the number of processed pages: every resource
contributes to exactly one counter. -/
theorem claudeApiLoopFrom_total (hashContent : String → String) (now : String)
    (files : List (String × Json)) (isDryRun : Bool) (net : DocPage → NetResult)
    (pages : List DocPage) :
    ∀ st, ∃ st',
      claudeApiLoopFrom hashContent now (mkManifest files) isDryRun net pages st = .ok st' ∧
      sumCounters st' = sumCounters st + pages.length := by
  induction pages with
  | nil => intro st; exact ⟨st, rfl, by simp⟩
  | cons p ps ih =>
    intro st
    obtain ⟨st1, h1, hs1, _⟩ := claudeApiStep_total hashContent now files isDryRun net st p
    obtain ⟨st2, h2, hs2⟩ := ih st1
    refine ⟨st2, ?_, ?_⟩
    · unfold claudeApiLoopFrom
      rw [h1]
      exact h2
    · rw [hs2, hs1]
      simp
      omega

/-- One unfolding step of the claude-api loop. -/
theorem claudeApiLoopFrom_cons (hashContent : String → String) (now : String)
    (oldManifest : Json) (isDryRun : Bool) (net : DocPage → NetResult)
    (p : DocPage) (rest : List DocPage) (st : SyncState) :
    claudeApiLoopFrom hashContent now oldManifest isDryRun net (p :: rest) st =
      match claudeApiStep hashContent now oldManifest isDryRun net st p with
      | .error e => .error e
      | .ok st' => claudeApiLoopFrom hashContent now oldManifest isDryRun net rest st' := rfl

/-- Sequential composition of the claude-api loop: processing a concatenated
page list is processing the first part and then, from the state it left
behind, the second — i.e. resource `i + 1` is handled only after resource
`i` is fully handled (or a thrown exception has rejected the run). -/
theorem claudeApiLoopFrom_append (hashContent : String → String) (now : String)
    (oldManifest : Json) (isDryRun : Bool) (net : DocPage → NetResult)
    (p₁ p₂ : List DocPage) :
    ∀ st, claudeApiLoopFrom hashContent now oldManifest isDryRun net (p₁ ++ p₂) st =
      match claudeApiLoopFrom hashContent now oldManifest isDryRun net p₁ st with
      | .error e => .error e
      | .ok st' => claudeApiLoopFrom hashContent now oldManifest isDryRun net p₂ st' := by
  induction p₁ with
  | nil => intro st; rfl
  | cons p ps ih =>
    intro st
    rw [List.cons_append, claudeApiLoopFrom_cons, claudeApiLoopFrom_cons]
    cases hs : claudeApiStep hashContent now oldManifest isDryRun net st p with
    | error e => rfl
    | ok st' => exact ih st'

/-- With a well-formed old manifest, one Claude Code loop iteration never
throws and moves exactly one counter up by one. -/
theorem ccStep_total (hashContent : String → String) (now : String)
    (files : List (String × Json)) (isDryRun : Bool) (net : DocPageCC → NetResult)
    (st : SyncState) (page : DocPageCC) :
    ∃ st', ccStep hashContent now (mkManifest files) isDryRun net st page = .ok st' ∧
      sumCounters st' = sumCounters st + 1 := by
  unfold ccStep
  cases hf : fetchDoc (net page) with
  | none =>
    exact ⟨_, rfl, by simp only [sumCounters]; omega⟩
  | some content =>
    rw [dynLookupOld_mkManifest]
    dsimp only
    split
    · rename_i ht
      split
      · rename_i e' herr
        obtain ⟨v, hv⟩ := jsGetProp_ok_of_truthy _ "hash" ht
        rw [hv] at herr
        cases herr
      · split
        · exact ⟨_, rfl, by simp only [sumCounters]; omega⟩
        · exact ⟨_, rfl, by simp only [sumCounters]; omega⟩
    · exact ⟨_, rfl, by simp only [sumCounters]; omega⟩

/-- With a well-formed old manifest the Claude Code page loop completes and
its counters grow by exactly the number of pages. -/
theorem ccLoopFrom_total (hashContent : String → String) (now : String)
    (files : List (String × Json)) (isDryRun : Bool) (net : DocPageCC → NetResult)
    (pages : List DocPageCC) :
    ∀ st, ∃ st',
      ccLoopFrom hashContent now (mkManifest files) isDryRun net pages st = .ok st' ∧
      sumCounters st' = sumCounters st + pages.length := by
  induction pages with
  | nil => intro st; exact ⟨st, rfl, by simp⟩
  | cons p ps ih =>
    intro st
    obtain ⟨st1, h1, hs1⟩ := ccStep_total hashContent now files isDryRun net st p
    obtain ⟨st2, h2, hs2⟩ := ih st1
    refine ⟨st2, ?_, ?_⟩
    · unfold ccLoopFrom
      rw [h1]
      exact h2
    · rw [hs2, hs1]
      simp
      omega

/-- The contribution of the supplementary changelog step to the counters:
one count when the fetch throws or the response is 2xx, but zero counts when
the response has a non-2xx status (that branch of the source neither
processes nor counts the resource). -/
theorem ccChangelogStep_sum (hashContent : String → String) (now : String)
    (oldManifest : Json) (isDryRun : Bool) (st : SyncState) (net : NetResult) :
    sumCounters (ccChangelogStep hashContent now oldManifest isDryRun st net) =
      sumCounters st + (match net with
        | NetResult.err => 1
        | NetResult.resp status _ => if respOk status then 1 else 0) := by
  unfold ccChangelogStep
  cases net with
  | err => simp only [sumCounters]; omega
  | resp status content =>
    dsimp only
    split
    · rename_i hok
      split
      · simp only [sumCounters, if_pos hok]
        omega
      · split
        · split
          · simp only [sumCounters, if_pos hok]
            omega
          · split
            · simp only [sumCounters, if_pos hok]
              omega
            · simp only [sumCounters, if_pos hok]
              omega
        · simp only [sumCounters, if_pos hok]
          omega
    · rename_i hok
      simp only [sumCounters, if_neg hok]
      omega

/-- Everything the run reports apart from the filesystem writes: the new
manifest being built, the three counters and the per-resource statuses. -/
def obsState (st : SyncState) :
    List (String × Json) × Nat × Nat × Nat × List (String × Status) :=
  (st.files, st.fetched, st.unchanged, st.failed, st.statuses)

/-- One claude-api iteration in dry-run mode versus live mode: started from
states that agree on everything but the writes, both succeed, they still
agree on everything but the writes, and the dry-run iteration performs no
write at all. -/
theorem claudeApiStep_dry_live (hashContent : String → String) (now : String)
    (files : List (String × Json)) (net : DocPage → NetResult) (page : DocPage)
    (st1 st2 : SyncState) (hobs : obsState st1 = obsState st2) :
    ∃ st1' st2',
      claudeApiStep hashContent now (mkManifest files) true net st1 page = .ok st1' ∧
      claudeApiStep hashContent now (mkManifest files) false net st2 page = .ok st2' ∧
      obsState st1' = obsState st2' ∧ st1'.writes = st1.writes := by
  simp only [obsState, Prod.mk.injEq] at hobs
  obtain ⟨h1, h2, h3, h4, h5⟩ := hobs
  unfold claudeApiStep
  cases hf : fetchDoc (net page) with
  | none =>
    exact ⟨_, _, rfl, rfl, by simp [obsState, h1, h2, h3, h4, h5], rfl⟩
  | some content =>
    rw [dynLookupOld_mkManifest]
    dsimp only
    split
    · rename_i ht
      split
      · rename_i e' herr
        obtain ⟨v, hv⟩ := jsGetProp_ok_of_truthy _ "hash" ht
        rw [hv] at herr
        cases herr
      · split
        · exact ⟨_, _, rfl, rfl, by simp [obsState, h1, h2, h3, h4, h5], rfl⟩
        · exact ⟨_, _, rfl, rfl, by simp [obsState, h1, h2, h3, h4, h5], by simp⟩
    · exact ⟨_, _, rfl, rfl, by simp [obsState, h1, h2, h3, h4, h5], by simp⟩

/-- The claude-api loop in dry-run mode versus live mode, lifted from the
single-step comparison. -/
theorem claudeApiLoopFrom_dry_live (hashContent : String → String) (now : String)
    (files : List (String × Json)) (net : DocPage → NetResult) (pages : List DocPage) :
    ∀ st1 st2, obsState st1 = obsState st2 →
    ∃ st1' st2',
      claudeApiLoopFrom hashContent now (mkManifest files) true net pages st1 = .ok st1' ∧
      claudeApiLoopFrom hashContent now (mkManifest files) false net pages st2 = .ok st2' ∧
      obsState st1' = obsState st2' ∧ st1'.writes = st1.writes := by
  induction pages with
  | nil => intro st1 st2 h; exact ⟨st1, st2, rfl, rfl, h, rfl⟩
  | cons p ps ih =>
    intro st1 st2 h
    obtain ⟨m1, m2, hm1, hm2, hobs, hw⟩ :=
      claudeApiStep_dry_live hashContent now files net p st1 st2 h
    obtain ⟨r1, r2, hr1, hr2, hobs', hw'⟩ := ih m1 m2 hobs
    refine ⟨r1, r2, ?_, ?_, hobs', ?_⟩
    · rw [claudeApiLoopFrom_cons, hm1]
      exact hr1
    · rw [claudeApiLoopFrom_cons, hm2]
      exact hr2
    · rw [hw', hw]

/-- A dry-run gemini-dev processing step performs no write. -/
theorem gemProcessResult_dry_writes (convert : String → Except String String)
    (now : String) (st : GemState) (r : GemDocPage × Option String) :
    (gemProcessResult convert now true st r).writes = st.writes := by
  obtain ⟨p, htmlOpt⟩ := r
  cases htmlOpt with
  | none => rfl
  | some html =>
    unfold gemProcessResult
    dsimp only
    cases convert html with
    | error e => rfl
    | ok md => rfl

/-- Dry-run and live gemini-dev processing count successes identically. -/
theorem gemProcessResult_dry_live_success (convert : String → Except String String)
    (now : String) (st1 st2 : GemState) (r : GemDocPage × Option String)
    (h : st1.successCount = st2.successCount) :
    (gemProcessResult convert now true st1 r).successCount =
      (gemProcessResult convert now false st2 r).successCount := by
  obtain ⟨p, htmlOpt⟩ := r
  cases htmlOpt with
  | none => exact h
  | some html =>
    unfold gemProcessResult
    dsimp only
    cases convert html with
    | error e => exact h
    | ok md => simp [h]

theorem gemFold_dry_writes (convert : String → Except String String) (now : String)
    (rs : List (GemDocPage × Option String)) :
    ∀ st, (rs.foldl (gemProcessResult convert now true) st).writes = st.writes := by
  induction rs with
  | nil => intro st; rfl
  | cons r rs' ih =>
    intro st
    rw [List.foldl_cons, ih, gemProcessResult_dry_writes]

theorem gemFold_dry_live_success (convert : String → Except String String) (now : String)
    (rs : List (GemDocPage × Option String)) :
    ∀ st1 st2, st1.successCount = st2.successCount →
      (rs.foldl (gemProcessResult convert now true) st1).successCount =
        (rs.foldl (gemProcessResult convert now false) st2).successCount := by
  induction rs with
  | nil => intro st1 st2 h; exact h
  | cons r rs' ih =>
    intro st1 st2 h
    rw [List.foldl_cons, List.foldl_cons]
    exact ih _ _ (gemProcessResult_dry_live_success convert now st1 st2 r h)

/-! ## Claim theorems -/

/-- C5 counterexample: for the absent-manifest-file state the claim is false
at a concrete input — `loadManifest` returns the default manifest but emits
no warning (the `console.warn` sits inside the `catch`, which an absent file
never reaches), contradicting the claim that both the absent and the
unparsable case return the default "after emitting a non-fatal warning". -/
theorem C5_counterexample :
    (loadManifest ManifestFile.absent).2 = false ∧
    loadManifest ManifestFile.absent = (defaultManifestJson, false) := by
  exact ⟨rfl, rfl⟩

/-- C5 (amended): for an absent manifest file `loadManifest` returns the
empty manifest with default metadata silently (no warning); for a present
but unparsable file it returns the same default after emitting the warning;
in both cases it returns normally instead of propagating an exception. -/
theorem C5_loadManifest_amended :
    loadManifest ManifestFile.absent = (defaultManifestJson, false) ∧
    (∀ raw, loadManifest (ManifestFile.unparsable raw) = (defaultManifestJson, true)) := by
  exact ⟨rfl, fun _ => rfl⟩

/-- C7 counterexample: the gemini-dev script exits with status 1 on an
uncaught orchestration error (it ends in a bare top-level `await` with no
catch), although it has no repository transport at all — so a non-zero exit
is not reserved to repository clone/update failure, contradicting the
claim's "and in no other case". -/
theorem C7_counterexample :
    geminiDevExitCode true = 1 ∧ geminiDevExitCode true ≠ 0 := by
  exact ⟨rfl, by decide⟩

/-- C7 (amended): the claude-api and Claude Code scripts always exit 0
(`main().catch(console.error)` swallows any rejection); the openai-codex
script exits 1 exactly on a clone/update failure and 0 otherwise, also when
the rest of `main` throws; the gemini-dev script, lacking a top-level catch,
exits 1 on an uncaught orchestration error and 0 otherwise. -/
theorem C7_exit_amended :
    (∀ mainRejected, claudeApiExitCode mainRejected = 0) ∧
    (∀ commit restRejected, codexExitCode (CloneResult.cloned commit) restRejected = 0) ∧
    (∀ restRejected, codexExitCode CloneResult.cloneError restRejected = 1) ∧
    geminiDevExitCode false = 0 ∧ geminiDevExitCode true = 1 := by
  exact ⟨fun _ => rfl, fun _ _ => rfl, fun _ => rfl, rfl, rfl⟩

/-- C8 counterexample: on the body `"a\n\n\nb"` (a run of three newlines,
i.e. two consecutive blank lines) the emitted document differs from what the
claim describes — the code collapses the run to one blank line, while a
collapse of only 3-or-more-blank-line runs would leave it untouched. -/
theorem C8_counterexample :
    cleanMarkdown "a\n\n\nb" "T" "https://u.test/d" "2026-02-03" ≠
      cleanMarkdownClaim "a\n\n\nb" "T" "https://u.test/d" "2026-02-03" := by
  decide

/-- C8 (amended): the emitted document equals the metadata header block
prepended to the body after every maximal run of 3 or more consecutive
newline characters — i.e. 2 or more consecutive blank lines — has been
collapsed to exactly one blank line (two newlines) and the result trimmed of
leading and trailing whitespace. -/
theorem C8_cleanMarkdown_amended (markdown title url synced : String) :
    cleanMarkdown markdown title url synced =
      mdFrontmatter title url synced ++ jsTrim (collapseCodeSpec markdown) := by
  unfold cleanMarkdown
  rw [collapseNewlineRuns_eq_spec]

/-- A configured claude-api page used for concrete evaluations (the first
entry of the script's `DOC_PAGES`). -/
def apiPageEx : DocPage :=
  { slug := "intro", outputPath := "intro.md", title := "Introduction",
    description := "Introduction to Claude API" }

/-- A body of length at least 50 that is plausible markdown but merely
mentions the `<html` tag in prose. -/
def c9Body : String :=
  "Markdown note: in HTML documents the <html> element is the root element of the page."

/-- C9: the HTML-page detection rejects by substring, not by page shape —
this valid-markdown body of length at least 50 merely containing `"<html"`
is rejected by `fetchDoc` (it returns `null`), and the resource is then
counted as failed by the main loop. -/
theorem C9_html_substring_rejection :
    50 ≤ strLen c9Body ∧
    strIncludes c9Body "<html" = true ∧
    fetchDoc (NetResult.resp 200 c9Body) = none ∧
    claudeApiStep (fun s => s) "2026-02-03" defaultManifestJson false
        (fun _ => NetResult.resp 200 c9Body) initState apiPageEx =
      .ok { initState with failed := 1,
                           statuses := [(apiPageEx.slug, Status.isFailed)] } := by
  refine ⟨by decide, by decide, by decide, ?_⟩
  rfl

/-- C6: the direct-URL fetch contract — `fetchDoc` returns the body exactly
when the HTTP response is 2xx, the body does not look like an HTML page
(doctype prefix / `<html` substring check), and the body length is at least
50; in every other case (non-2xx status, HTML-looking body, too-short body,
or a network-level exception) it returns `null` rather than throwing. -/
theorem C6_fetchDoc_contract (net : NetResult) (b : String) :
    fetchDoc net = some b ↔
      ∃ status, net = NetResult.resp status b ∧ respOk status = true ∧
        strStartsWith b "<!DOCTYPE" = false ∧ strIncludes b "<html" = false ∧
        50 ≤ strLen b := by
  cases net with
  | err =>
    simp [fetchDoc]
  | resp s c =>
    unfold fetchDoc
    constructor
    · intro h
      by_cases hok : respOk s = true
      · by_cases hhtml : (strStartsWith c "<!DOCTYPE" || strIncludes c "<html") = true
        · simp [hok, hhtml] at h
        · have hor : (strStartsWith c "<!DOCTYPE" || strIncludes c "<html") = false := by
            simpa using hhtml
          obtain ⟨hds, hinc⟩ := Bool.or_eq_false_iff.mp hor
          by_cases hlen : strLen c < 50
          · simp [hok, hor, hlen] at h
          · simp [hok, hor, hlen] at h
            subst h
            exact ⟨s, rfl, hok, hds, hinc, by omega⟩
      · have hok' : respOk s = false := by simpa using hok
        simp [hok'] at h
    · rintro ⟨status, heq, hok, hds, hinc, hlen⟩
      cases heq
      dsimp only
      rw [hok, hds, hinc]
      simp only [Bool.not_true, Bool.or_self, Bool.false_eq_true, if_false]
      rw [if_neg (by omega : ¬ strLen b < 50)]

/-- C1: change detection in a live (non-preview) run, per resource whose
fetch succeeds.  If the previous manifest holds an entry under the
resource's key whose hash equals the hash of the fetched content, the
resource is reported unchanged and the old entry is carried forward verbatim
into the new manifest (its original `lastUpdated` included, since the whole
entry object is reused); otherwise the resource is reported updated (old
entry present) or new (no old entry), the content is written to the
destination path, and a fresh entry with the new hash and the current
timestamp is recorded in the new manifest. -/
theorem C1_change_detection (hashContent : String → String) (now : String)
    (oldFiles : List (String × Json)) (net : DocPage → NetResult)
    (st : SyncState) (page : DocPage) (content : String)
    (hfetch : fetchDoc (net page) = some content) :
    (∀ e, oldFiles.lookup page.outputPath = some e → jsTruthy e = true →
        jsGetProp e "hash" = .ok (Json.str (hashContent content)) →
        claudeApiStep hashContent now (mkManifest oldFiles) false net st page =
          .ok { st with unchanged := st.unchanged + 1,
                        files := setKey st.files page.outputPath e,
                        statuses := st.statuses ++ [(page.slug, Status.isUnchanged)] } ∧
        (setKey st.files page.outputPath e).lookup page.outputPath = some e) ∧
    (∀ e hv, oldFiles.lookup page.outputPath = some e → jsTruthy e = true →
        jsGetProp e "hash" = .ok hv → jsEqStr hv (hashContent content) = false →
        claudeApiStep hashContent now (mkManifest oldFiles) false net st page =
          .ok { st with fetched := st.fetched + 1,
                        writes := st.writes ++ [(page.outputPath, content)],
                        files := setKey st.files page.outputPath
                          (freshEntryJson page (hashContent content) now),
                        statuses := st.statuses ++ [(page.slug, Status.isUpdated)] } ∧
        (setKey st.files page.outputPath
            (freshEntryJson page (hashContent content) now)).lookup page.outputPath =
          some (freshEntryJson page (hashContent content) now)) ∧
    (oldFiles.lookup page.outputPath = none →
        claudeApiStep hashContent now (mkManifest oldFiles) false net st page =
          .ok { st with fetched := st.fetched + 1,
                        writes := st.writes ++ [(page.outputPath, content)],
                        files := setKey st.files page.outputPath
                          (freshEntryJson page (hashContent content) now),
                        statuses := st.statuses ++ [(page.slug, Status.isNew)] } ∧
        (setKey st.files page.outputPath
            (freshEntryJson page (hashContent content) now)).lookup page.outputPath =
          some (freshEntryJson page (hashContent content) now)) := by
  refine ⟨?_, ?_, ?_⟩
  · intro e he ht hh
    refine ⟨?_, lookup_setKey_self st.files page.outputPath e⟩
    unfold claudeApiStep
    rw [hfetch]
    dsimp only
    rw [dynLookupOld_mkManifest, he]
    simp only [Option.getD]
    rw [if_pos ht]
    rw [hh]
    dsimp only
    simp [jsEqStr]
  · intro e hv he ht hh hneq
    refine ⟨?_, lookup_setKey_self st.files page.outputPath _⟩
    unfold claudeApiStep
    rw [hfetch]
    dsimp only
    rw [dynLookupOld_mkManifest, he]
    simp only [Option.getD]
    rw [if_pos ht]
    rw [hh]
    dsimp only
    rw [hneq]
    simp
  · intro he
    refine ⟨?_, lookup_setKey_self st.files page.outputPath _⟩
    unfold claudeApiStep
    rw [hfetch]
    dsimp only
    rw [dynLookupOld_mkManifest, he]
    simp [jsTruthy]

/-- A plain markdown body of length at least 50 with no HTML markers. -/
def exBody : String :=
  "The quick brown fox jumps over the lazy dog near the river bank."

/-- A concrete manifest entry whose hash field is `"HASH0"`. -/
def e0 : Json :=
  Json.obj [("hash", Json.str "HASH0"), ("lastUpdated", Json.str "2020-01-01T00:00:00Z")]

/-- A concrete hash oracle mapping every content to `"HASH0"`. -/
def cHash : String → String := fun _ => "HASH0"

/-- Witness for C1: on a concrete page whose fetch succeeds and whose old
manifest entry carries the same hash, the step reports the resource
unchanged and carries the old entry forward verbatim. -/
theorem C1_witness :
    claudeApiStep cHash "2026-02-03" (mkManifest [("intro.md", e0)]) false
        (fun _ => NetResult.resp 200 exBody) initState apiPageEx =
      .ok { initState with unchanged := 1,
                           files := setKey initState.files "intro.md" e0,
                           statuses := [("intro", Status.isUnchanged)] } ∧
    (setKey initState.files "intro.md" e0).lookup "intro.md" = some e0 := by
  have h := (C1_change_detection cHash "2026-02-03" [("intro.md", e0)]
      (fun _ => NetResult.resp 200 exBody) initState apiPageEx exBody (by decide)).1
      e0 rfl rfl rfl
  simpa [initState, apiPageEx] using h

/-- The first configured page of the Claude Code script. -/
def ccPageEx : DocPageCC :=
  { slug := "overview", title := "Overview",
    description := "What Claude Code is and key capabilities" }

/-- C2 counterexample: a concrete Claude Code run over one resource whose
fetch succeeds, in which the supplementary changelog request returns a 404
response.  The `if (response.ok)` block of the changelog step has no `else`
and throws nothing, so no counter is incremented for the changelog: the
counters sum to `N = 1`, not to `N + 1 = 2` as the claim requires for a job
with a supplementary changelog resource. -/
theorem C2_counterexample :
    countersSum (ccRun cHash "2026-02-03" defaultManifestJson false
        (fun _ => NetResult.resp 200 exBody) [ccPageEx]
        (NetResult.resp 404 "Not Found")) = 1 ∧
    countersSum (ccRun cHash "2026-02-03" defaultManifestJson false
        (fun _ => NetResult.resp 200 exBody) [ccPageEx]
        (NetResult.resp 404 "Not Found")) ≠ [ccPageEx].length + 1 := by
  constructor
  · decide
  · decide

/-- C2 (amended): in a run whose loaded manifest is well-formed, a failing
resource increments only the `failed` counter and the loop continues, and at
the end of the run `fetched + unchanged + failed` equals the number of
configured resources `N` — with the supplementary changelog of the Claude
Code job contributing one further count exactly when its fetch throws or its
response is 2xx, and zero counts when its response has a non-2xx status. -/
theorem C2_counters_amended :
    (∀ (hashContent : String → String) (now : String) (files : List (String × Json))
        (isDryRun : Bool) (net : DocPage → NetResult) (pages : List DocPage),
      ∃ r, claudeApiRun hashContent now (mkManifest files) isDryRun net pages = .ok r ∧
        r.state.fetched + r.state.unchanged + r.state.failed = pages.length) ∧
    (∀ (hashContent : String → String) (now : String) (files : List (String × Json))
        (isDryRun : Bool) (net : DocPageCC → NetResult) (pages : List DocPageCC)
        (changelogNet : NetResult),
      ∃ r, ccRun hashContent now (mkManifest files) isDryRun net pages changelogNet = .ok r ∧
        r.state.fetched + r.state.unchanged + r.state.failed = pages.length +
          (match changelogNet with
            | NetResult.err => 1
            | NetResult.resp status _ => if respOk status then 1 else 0)) ∧
    (∀ (hashContent : String → String) (now : String) (files : List (String × Json))
        (isDryRun : Bool) (net : DocPage → NetResult) (st : SyncState) (page : DocPage),
      fetchDoc (net page) = none →
        claudeApiStep hashContent now (mkManifest files) isDryRun net st page =
          .ok { st with failed := st.failed + 1,
                        statuses := st.statuses ++ [(page.slug, Status.isFailed)] }) := by
  refine ⟨?_, ?_, ?_⟩
  · intro hashContent now files isDryRun net pages
    obtain ⟨st', hok, hsum⟩ :=
      claudeApiLoopFrom_total hashContent now files isDryRun net pages initState
    have hrun : claudeApiRun hashContent now (mkManifest files) isDryRun net pages =
        .ok { state := st',
              savedManifest :=
                if isDryRun then none
                else some (.obj [("lastSync", .str now), ("baseUrl", .str BASE_URL),
                                 ("files", .obj st'.files)]) } := by
      unfold claudeApiRun claudeApiLoop
      rw [hok]
    refine ⟨_, hrun, ?_⟩
    have h0 : sumCounters initState = 0 := rfl
    rw [h0, Nat.zero_add] at hsum
    exact hsum
  · intro hashContent now files isDryRun net pages changelogNet
    obtain ⟨st', hok, hsum⟩ :=
      ccLoopFrom_total hashContent now files isDryRun net pages initState
    have hrun : ccRun hashContent now (mkManifest files) isDryRun net pages changelogNet =
        .ok { state := ccChangelogStep hashContent now (mkManifest files) isDryRun st' changelogNet,
              savedManifest :=
                if isDryRun then none
                else some (.obj [("lastSync", .str now), ("baseUrl", .str CC_BASE_URL),
                                 ("files", .obj (ccChangelogStep hashContent now (mkManifest files)
                                    isDryRun st' changelogNet).files)]) } := by
      unfold ccRun
      rw [hok]
    refine ⟨_, hrun, ?_⟩
    have h0 : sumCounters initState = 0 := rfl
    rw [h0, Nat.zero_add] at hsum
    have hch := ccChangelogStep_sum hashContent now (mkManifest files) isDryRun st' changelogNet
    simp only [sumCounters] at hch hsum
    rw [hch, hsum]
  · intro hashContent now files isDryRun net st page hf
    unfold claudeApiStep
    rw [hf]

/-- Witness for C2: the failure-isolation conjunct at a concrete input — a
network-level fetch failure increments only `failed`. -/
theorem C2_witness :
    claudeApiStep cHash "2026-02-03" (mkManifest []) false (fun _ => NetResult.err)
        initState apiPageEx =
      .ok { initState with failed := 1, statuses := [("intro", Status.isFailed)] } := by
  have h := C2_counters_amended.2.2 cHash "2026-02-03" [] false (fun _ => NetResult.err)
      initState apiPageEx rfl
  simpa [initState, apiPageEx] using h

/-- The first configured page of the gemini-dev script. -/
def gemPageEx : GemDocPage :=
  { url := "https://ai.google.dev/gemini-api/docs/models",
    outputPath := "models.md", title := "Gemini Models Overview" }

/-- C3 counterexample: in the gemini-dev job the per-resource success line
is *not* printed exactly as in a live run — the preview line additionally
carries the byte count (`✓ path (N bytes)` versus `✓ path`), so the claim's
"printed exactly as they would be in a live run" fails at this concrete
run. -/
theorem C3_counterexample :
    (gemRun Except.ok "2026-02-03" true
        (fun _ => NetResult.resp 200 "hello") [gemPageEx]).lines ≠
      (gemRun Except.ok "2026-02-03" false
        (fun _ => NetResult.resp 200 "hello") [gemPageEx]).lines := by
  decide

/-- C3 (amended): preview mode creates no destination file and no manifest
file and computes the same per-resource statuses, counters and new-manifest
contents as the live run; in the claude-api-style jobs the printed status
words are identical to the live run's, while the gemini-dev job computes the
same success count but formats its preview success line with an extra byte
count. -/
theorem C3_preview_amended :
    (∀ (hashContent : String → String) (now : String) (files : List (String × Json))
        (net : DocPage → NetResult) (pages : List DocPage),
      ∃ rd rl,
        claudeApiRun hashContent now (mkManifest files) true net pages = .ok rd ∧
        claudeApiRun hashContent now (mkManifest files) false net pages = .ok rl ∧
        rd.state.writes = [] ∧ rd.savedManifest = none ∧
        rd.state.statuses = rl.state.statuses ∧
        rd.state.fetched = rl.state.fetched ∧
        rd.state.unchanged = rl.state.unchanged ∧
        rd.state.failed = rl.state.failed ∧
        rd.state.files = rl.state.files) ∧
    (∀ (convert : String → Except String String) (now : String)
        (net : GemDocPage → NetResult) (pages : List GemDocPage),
      (gemRun convert now true net pages).writes = [] ∧
      (gemRun convert now true net pages).successCount =
        (gemRun convert now false net pages).successCount) := by
  constructor
  · intro hashContent now files net pages
    obtain ⟨st1, st2, h1, h2, hobs, hw⟩ :=
      claudeApiLoopFrom_dry_live hashContent now files net pages initState initState rfl
    simp only [obsState, Prod.mk.injEq] at hobs
    obtain ⟨hf, hfc, hu, hfl, hs⟩ := hobs
    have hrun1 : claudeApiRun hashContent now (mkManifest files) true net pages =
        .ok { state := st1, savedManifest := none } := by
      unfold claudeApiRun claudeApiLoop
      rw [h1]
      rfl
    have hrun2 : claudeApiRun hashContent now (mkManifest files) false net pages =
        .ok { state := st2,
              savedManifest := some (.obj [("lastSync", .str now), ("baseUrl", .str BASE_URL),
                                           ("files", .obj st2.files)]) } := by
      unfold claudeApiRun claudeApiLoop
      rw [h2]
      rfl
    exact ⟨_, _, hrun1, hrun2, by rw [hw]; rfl, rfl, hs, hfc, hu, hfl, hf⟩
  · intro convert now net pages
    constructor
    · unfold gemRun
      rw [gemFold_dry_writes]
    · unfold gemRun
      exact gemFold_dry_live_success convert now (gemResults net pages) _ _ rfl

/-- C4 counterexample: the gemini-dev fetch schedule puts the first five
configured pages into one batch that `Promise.all` fetches concurrently —
more than one resource of the same job is in flight at once, refuting
strictly sequential processing for this job. -/
theorem C4_counterexample :
    ((gemFetchBatches GEMINI_DOC_PAGES).headD []).length = 5 ∧
    1 < ((gemFetchBatches GEMINI_DOC_PAGES).headD []).length := by
  constructor
  · decide
  · decide

/-- C4 (amended): the claude-api-style jobs are strictly sequential — the
loop over a concatenation processes the first part completely and only then
the second, from the state the first part produced (with an exception
rejecting the remainder); the gemini-dev job instead fetches in concurrent
batches of at most 5 pages (each batch nonempty, the batches covering the
configured list in order) and then converts and writes the results
sequentially. -/
theorem C4_sequencing_amended :
    (∀ (hashContent : String → String) (now : String) (oldManifest : Json)
        (isDryRun : Bool) (net : DocPage → NetResult) (p₁ p₂ : List DocPage)
        (st : SyncState),
      claudeApiLoopFrom hashContent now oldManifest isDryRun net (p₁ ++ p₂) st =
        match claudeApiLoopFrom hashContent now oldManifest isDryRun net p₁ st with
        | .error e => .error e
        | .ok st' => claudeApiLoopFrom hashContent now oldManifest isDryRun net p₂ st') ∧
    (∀ pages : List GemDocPage, (gemFetchBatches pages).flatten = pages) ∧
    (∀ (pages : List GemDocPage) (b : List GemDocPage), b ∈ gemFetchBatches pages →
      1 ≤ b.length ∧ b.length ≤ 5) := by
  refine ⟨?_, ?_, ?_⟩
  · intro hashContent now oldManifest isDryRun net p₁ p₂ st
    exact claudeApiLoopFrom_append hashContent now oldManifest isDryRun net p₁ p₂ st
  · intro pages
    exact chunks_flatten 5 pages
  · intro pages b hb
    exact chunks_mem_length 5 (by omega) pages b hb

/-- Witness for C4: the batching facts evaluated on the concrete configured
page list of the gemini-dev script. -/
theorem C4_witness :
    (gemFetchBatches GEMINI_DOC_PAGES).flatten = GEMINI_DOC_PAGES ∧
    (1 ≤ ((gemFetchBatches GEMINI_DOC_PAGES).headD []).length ∧
      ((gemFetchBatches GEMINI_DOC_PAGES).headD []).length ≤ 5) := by
  constructor
  · exact C4_sequencing_amended.2.1 GEMINI_DOC_PAGES
  · exact C4_sequencing_amended.2.2 GEMINI_DOC_PAGES
      ((gemFetchBatches GEMINI_DOC_PAGES).headD []) (by decide)

/-- For a loaded manifest value that is `null`, a number, or an object
without a `files` property, the expression `manifest.files[key]` throws a
`TypeError` under JS semantics, whatever the key. -/
theorem dynLookupOld_bad (v : Json) (k : String)
    (hv : v = Json.null ∨ (∃ n, v = Json.num n) ∨
      (∃ fs, v = Json.obj fs ∧ fs.lookup "files" = none)) :
    ∃ e, dynLookupOld v k = .error e := by
  rcases hv with rfl | ⟨n, rfl⟩ | ⟨fs, rfl, hfs⟩
  · exact ⟨_, rfl⟩
  · exact ⟨_, rfl⟩
  · unfold dynLookupOld
    rw [show jsGetProp (Json.obj fs) "files" = .ok Json.undefined by simp [jsGetProp, hfs]]
    exact ⟨_, rfl⟩

/-- If every manifest lookup throws, the claude-api loop rejects as soon as
it reaches the first resource whose fetch succeeded (failed fetches are
skipped without touching the manifest). -/
theorem claudeApiLoopFrom_error_of_bad (hashContent : String → String) (now : String)
    (v : Json) (isDryRun : Bool) (net : DocPage → NetResult)
    (hbad : ∀ k, ∃ e, dynLookupOld v k = .error e) :
    ∀ (pages : List DocPage) (st : SyncState),
      (∃ p, p ∈ pages ∧ (fetchDoc (net p)).isSome = true) →
      ∃ e, claudeApiLoopFrom hashContent now v isDryRun net pages st = .error e := by
  intro pages
  induction pages with
  | nil =>
    intro st h
    obtain ⟨p, hp, _⟩ := h
    simp at hp
  | cons p ps ih =>
    intro st h
    obtain ⟨q, hq, hqs⟩ := h
    cases hf : fetchDoc (net p) with
    | some content =>
      obtain ⟨e, he⟩ := hbad p.outputPath
      refine ⟨e, ?_⟩
      rw [claudeApiLoopFrom_cons]
      unfold claudeApiStep
      rw [hf]
      dsimp only
      rw [he]
    | none =>
      rcases List.mem_cons.mp hq with rfl | hq'
      · rw [hf] at hqs
        simp at hqs
      · cases hs2 : claudeApiStep hashContent now v isDryRun net st p with
        | error e => exact ⟨e, by rw [claudeApiLoopFrom_cons, hs2]⟩
        | ok st' =>
          obtain ⟨e, he2⟩ := ih st' ⟨q, hq', hqs⟩
          exact ⟨e, by rw [claudeApiLoopFrom_cons, hs2]; exact he2⟩

/-- C10: corrupt-manifest recovery covers only unparsable files.  If the
manifest file parses to valid JSON that is not manifest-shaped (`null`, a
number, or an object without a `files` field), `loadManifest` returns that
value unchanged (no warning, no fallback), and on the first resource whose
fetch succeeds the lookup `manifest.files[outputPath]` throws, rejecting
`main` before any summary — instead of falling back to a first-time sync. -/
theorem C10_corrupt_manifest (hashContent : String → String) (now : String)
    (net : DocPage → NetResult) (pages : List DocPage) (v : Json)
    (hv : v = Json.null ∨ (∃ n, v = Json.num n) ∨
      (∃ fs, v = Json.obj fs ∧ fs.lookup "files" = none))
    (hp : ∃ p, p ∈ pages ∧ (fetchDoc (net p)).isSome = true) :
    loadManifest (ManifestFile.parsed v) = (v, false) ∧
    ∃ e, claudeApiRun hashContent now v false net pages = .error e := by
  refine ⟨rfl, ?_⟩
  obtain ⟨e, he⟩ := claudeApiLoopFrom_error_of_bad hashContent now v false net
      (fun k => dynLookupOld_bad v k hv) pages initState hp
  refine ⟨e, ?_⟩
  unfold claudeApiRun claudeApiLoop
  rw [he]

/-- Witness for C10: with a manifest file containing just `null` and one
page whose fetch succeeds, the run rejects. -/
theorem C10_witness :
    loadManifest (ManifestFile.parsed Json.null) = (Json.null, false) ∧
    ∃ e, claudeApiRun cHash "2026-02-03" Json.null false
        (fun _ => NetResult.resp 200 exBody) [apiPageEx] = .error e := by
  exact C10_corrupt_manifest cHash "2026-02-03" (fun _ => NetResult.resp 200 exBody)
    [apiPageEx] Json.null (Or.inl rfl) ⟨apiPageEx, by simp, by decide⟩
